import Mathlib

/-!
Verification of the supply/issuance calculation engine of the Bitcoin
tokenomics calculator (`bitcoin_tokenomics_calculator.py`).

The engine is embedded shallowly over exact rational arithmetic (`ℚ`).
On the bounded paths that the value-level theorems below quantify over
(at most 34 epochs: the percentage walk, and supply values at heights up
to `34 * 210000`), every float operation the Python code performs is
exactly representable in IEEE double precision, so the rational semantics
coincides with the executed float semantics there.  Outside that region
two effects of the float execution matter, and they are modelled
explicitly wherever a statement depends on them:

* converting the exact Python integer `2 ** epoch` to a double raises
  `OverflowError` once `2 ^ epoch` exceeds the largest finite double
  `(2^53 - 1) * 2^971`, i.e. from epoch `1024` on; the `*_checked`
  variants below return `none` exactly on the raising inputs and `some`
  of the modelled value otherwise;
* from roughly epoch 53 onward the per-epoch terms fall below half an
  ulp of the ≈ 2.1e7 accumulator and the IEEE accumulation stalls, so no
  theorem below asserts the numeric value of the accumulation in that
  region — only order facts (monotonicity, strictly exceeding
  `total_supply()`) that hold both for the exact sums and for the
  correctly rounded, monotone float sums.

Loops are embedded as follows:

* `calculate_total_halvings` (the `while reward_satoshis >= 1` loop of
  `_calculate_total_halvings`) is a well-founded recursion on the floor of
  the reward, so its totality is itself the termination proof for the loop.
* `supplyAtBlockAux` (the `while blocks_processed < block_height` loop of
  `supply_at_block`) is a well-founded recursion on the remaining height:
  every iteration consumes at least one block.
* `blocksToPercentageAux` (the `while cumulative_supply < target_supply`
  loop of `blocks_to_percentage`) genuinely fails to terminate for inputs
  above 100, so it is embedded with explicit fuel; the top-level call uses
  `total_halvings + 1` units of fuel, and `some` results certify that the
  source loop terminates within that many iterations.

`float('inf')`, the value `inflation_rate_at_epoch` returns when the
existing supply is zero, is modelled as `⊤` in `WithTop ℚ`.
-/

/-- Protocol constant `INITIAL_REWARD = 50.0` (BTC per block). -/
def INITIAL_REWARD : ℚ := 50

/-- Protocol constant `HALVING_INTERVAL = 210_000` (blocks). -/
def HALVING_INTERVAL : ℕ := 210000

/-- Protocol constant `SATOSHIS_PER_BTC = 100_000_000`. -/
def SATOSHIS_PER_BTC : ℕ := 100000000

/-- The `while reward_satoshis >= 1: reward_satoshis /= 2; halvings += 1`
loop of `_calculate_total_halvings`, as a recursion on the current reward.
It is well-founded on `⌊reward⌋.toNat`, which proves the loop terminates
for every rational starting value. -/
def calculate_total_halvings (reward_satoshis : ℚ) : ℕ :=
  if h : 1 ≤ reward_satoshis then calculate_total_halvings (reward_satoshis / 2) + 1
  else 0
termination_by ⌊reward_satoshis⌋.toNat
decreasing_by
  have h1 : (1 : ℤ) ≤ ⌊reward_satoshis⌋ := Int.le_floor.mpr (by exact_mod_cast h)
  have h2 : ⌊reward_satoshis / 2⌋ < ⌊reward_satoshis⌋ := by
    apply Int.floor_lt.mpr
    have h3 : reward_satoshis < ⌊reward_satoshis⌋ + 1 := Int.lt_floor_add_one _
    have h4 : (1 : ℚ) ≤ (⌊reward_satoshis⌋ : ℚ) := by exact_mod_cast h1
    linarith
  omega

/-- `self.total_halvings = self._calculate_total_halvings()` with
`reward_satoshis = self.INITIAL_REWARD * self.SATOSHIS_PER_BTC`. -/
def total_halvings : ℕ := calculate_total_halvings (INITIAL_REWARD * SATOSHIS_PER_BTC)

/-- `total_supply`: the closed-form geometric series
`INITIAL_REWARD * HALVING_INTERVAL * (1 - 0.5 ** total_halvings) / (1 - 0.5)`. -/
def total_supply : ℚ :=
  INITIAL_REWARD * HALVING_INTERVAL * (1 - (0.5 : ℚ) ^ total_halvings) / (1 - 0.5)

/-- The `while blocks_processed < block_height` loop of `supply_at_block`.
Each iteration processes `min(HALVING_INTERVAL, block_height - blocks_processed)`
blocks at reward `INITIAL_REWARD / 2 ** epoch`; it consumes at least one
block per iteration, so the recursion is well-founded on the remaining
height. -/
def supplyAtBlockAux (block_height blocks_processed : ℤ) (epoch : ℕ) (supply : ℚ) : ℚ :=
  if blocks_processed < block_height then
    supplyAtBlockAux block_height
      (blocks_processed + min (HALVING_INTERVAL : ℤ) (block_height - blocks_processed))
      (epoch + 1)
      (supply + ((min (HALVING_INTERVAL : ℤ) (block_height - blocks_processed) : ℤ) : ℚ) *
        (INITIAL_REWARD / 2 ^ epoch))
  else supply
termination_by (block_height - blocks_processed).toNat
decreasing_by
  have hI : (0 : ℤ) < (HALVING_INTERVAL : ℤ) := by unfold HALVING_INTERVAL; omega
  omega

/-- `supply_at_block(block_height)`: cumulative supply at a block height.
The Python parameter is an unbounded `int`, so the height is `ℤ`. -/
def supply_at_block (block_height : ℤ) : ℚ := supplyAtBlockAux block_height 0 0 0

/-- The `while cumulative_supply < target_supply` loop of
`blocks_to_percentage`, with explicit fuel (the source loop is unbounded
and genuinely diverges for some inputs; `some` certifies termination
within the given number of iterations).  Returns the `(blocks,
cumulative_supply)` pair the loop leaves behind.  The source locals are
inlined: `reward = INITIAL_REWARD / 2 ** epoch`, `remaining_supply =
target_supply - cumulative_supply`, and `blocks_needed =
int(remaining_supply / reward)`, where Python's `int()` truncates toward
zero and coincides with `⌊·⌋.toNat` because in the partial-epoch branch
`remaining_supply` and `reward` are positive. -/
def blocksToPercentageAux (fuel : ℕ) (target_supply : ℚ) (blocks : ℕ)
    (cumulative_supply : ℚ) (epoch : ℕ) : Option (ℕ × ℚ) :=
  match fuel with
  | 0 => none
  | fuel + 1 =>
    if cumulative_supply < target_supply then
      if target_supply - cumulative_supply ≥
          (HALVING_INTERVAL : ℚ) * (INITIAL_REWARD / 2 ^ epoch) then
        blocksToPercentageAux fuel target_supply (blocks + HALVING_INTERVAL)
          (cumulative_supply + (HALVING_INTERVAL : ℚ) * (INITIAL_REWARD / 2 ^ epoch))
          (epoch + 1)
      else
        some (blocks + ⌊(target_supply - cumulative_supply) / (INITIAL_REWARD / 2 ^ epoch)⌋.toNat,
          cumulative_supply +
            ((⌊(target_supply - cumulative_supply) / (INITIAL_REWARD / 2 ^ epoch)⌋.toNat : ℕ) : ℚ) *
              (INITIAL_REWARD / 2 ^ epoch))
    else some (blocks, cumulative_supply)

/-- `blocks_to_percentage(percentage)`: target supply is
`total_supply() * (percentage / 100)`; after the loop the code computes
`exact_percentage = cumulative_supply / total_supply() * 100`.  The walk
is given `total_halvings + 1` units of fuel. -/
def blocks_to_percentage (percentage : ℚ) : Option (ℕ × ℚ) :=
  (blocksToPercentageAux (total_halvings + 1) (total_supply * (percentage / 100)) 0 0 0).map
    (fun bc => (bc.1, bc.2 / total_supply * 100))

/-- The denominator height chosen by `inflation_rate_at_epoch`:
`(epoch + 1) * HALVING_INTERVAL` when `use_end_supply` else
`epoch * HALVING_INTERVAL`. -/
def inflationDenomHeight (epoch : ℕ) (use_end_supply : Bool) : ℤ :=
  if use_end_supply then ((epoch + 1) * HALVING_INTERVAL : ℕ)
  else (epoch * HALVING_INTERVAL : ℕ)

/-- `inflation_rate_at_epoch(epoch, use_end_supply)`.  The annualized
issuance is `(365.25 * 24 * 60 / 10) * reward`; when the existing supply
is zero the Python code returns `float('inf')`, modelled as `⊤`. -/
def inflation_rate_at_epoch (epoch : ℕ) (use_end_supply : Bool) : WithTop ℚ :=
  let existing_supply := supply_at_block (inflationDenomHeight epoch use_end_supply)
  let reward := INITIAL_REWARD / 2 ^ epoch
  let annual_issuance := (365.25 * 24 * 60 / 10 : ℚ) * reward
  if existing_supply = 0 then ⊤
  else ((annual_issuance / existing_supply * 100 : ℚ) : WithTop ℚ)

/-- The largest finite IEEE-754 double, `(2^53 - 1) * 2^971`, as an exact
natural number.  CPython raises `OverflowError` when converting an `int`
above it to `float`; for the power-of-two arguments `2 ** epoch` arising
here, the conversion raises exactly when `epoch ≥ 1024`. -/
def DBL_MAX_NAT : ℕ := (2 ^ 53 - 1) * 2 ^ 971

/-- `supply_at_block` as executed by CPython.  The iteration for epoch
`1024` computes `reward = 50.0 / (2 ** 1024)` and raises `OverflowError`
(`2 ^ 1024 > DBL_MAX_NAT`); that iteration runs exactly when
`block_height > 1024 * HALVING_INTERVAL`.  `none` models the raised
exception; on the non-raising domain the result is the walk's value
(kept in exact arithmetic). -/
def supply_at_block_checked (block_height : ℤ) : Option ℚ :=
  if block_height ≤ 1024 * (HALVING_INTERVAL : ℤ) then some (supply_at_block block_height)
  else none

/-- `inflation_rate_at_epoch` as executed by CPython.  The line
`reward = self.INITIAL_REWARD / (2 ** epoch)` converts the exact integer
`2 ** epoch` to a double and raises `OverflowError` when that integer
exceeds `DBL_MAX_NAT`, i.e. exactly for `epoch ≥ 1024` (for
`use_end_supply` the preceding `supply_at_block` call raises at the same
epochs).  `none` models the raised exception. -/
def inflation_rate_at_epoch_checked (epoch : ℕ) (use_end_supply : Bool) : Option (WithTop ℚ) :=
  if 2 ^ epoch ≤ DBL_MAX_NAT then some (inflation_rate_at_epoch epoch use_end_supply)
  else none

/-- The explicit summation `sum(INITIAL_REWARD * HALVING_INTERVAL / (2 ** i)
for i in range(total_halvings))` used by the repository's own verification
of the closed form (the geometric-series check). -/
def geometricSeriesSum : ℚ :=
  ∑ i ∈ Finset.range total_halvings, INITIAL_REWARD * (HALVING_INTERVAL : ℚ) / 2 ^ i

/-- Partial supply after `k` complete epochs: the walk's cumulative value
at height `k * HALVING_INTERVAL`. -/
def partialSupplySum (k : ℕ) : ℚ :=
  ∑ i ∈ Finset.range k, (HALVING_INTERVAL : ℚ) * (INITIAL_REWARD / 2 ^ i)

/-! ### Helper lemmas: the halving-count loop -/

lemma calculate_total_halvings_step (r : ℚ) (h : 1 ≤ r) :
    calculate_total_halvings r = calculate_total_halvings (r / 2) + 1 := by
  rw [calculate_total_halvings]
  exact dif_pos h

lemma calculate_total_halvings_zero (r : ℚ) (h : ¬ 1 ≤ r) :
    calculate_total_halvings r = 0 := by
  rw [calculate_total_halvings]
  exact dif_neg h

/-- The halving loop started between consecutive powers of two counts the
exponent plus one. -/
lemma calculate_total_halvings_pow (n : ℕ) : ∀ a : ℚ, 2 ^ n ≤ a → a < 2 ^ (n + 1) →
    calculate_total_halvings a = n + 1 := by
  induction n with
  | zero =>
    intro a h1 h2
    rw [calculate_total_halvings_step a (by simpa using h1), calculate_total_halvings_zero]
    intro hc
    rw [pow_one] at h2
    linarith
  | succ n ih =>
    intro a h1 h2
    have h2n : (1 : ℚ) ≤ 2 ^ (n + 1) := one_le_pow₀ (by norm_num)
    rw [calculate_total_halvings_step a (h2n.trans h1), ih (a / 2) ?_ ?_]
    · have := pow_succ (2 : ℚ) n
      linarith
    · have := pow_succ (2 : ℚ) (n + 1)
      linarith

lemma total_halvings_eq : total_halvings = 33 := by
  unfold total_halvings INITIAL_REWARD SATOSHIS_PER_BTC
  have h := calculate_total_halvings_pow 32 (50 * ((100000000 : ℕ) : ℚ))
    (by norm_num) (by norm_num)
  simpa using h

lemma total_supply_eq : total_supply = 21000000 * (1 - (1/2 : ℚ) ^ 33) := by
  unfold total_supply INITIAL_REWARD HALVING_INTERVAL
  rw [total_halvings_eq, show (0.5 : ℚ) = 1/2 by norm_num]
  norm_num

lemma total_supply_pos : 0 < total_supply := by
  rw [total_supply_eq]
  norm_num

/-! ### Helper lemmas: partial supply sums -/

lemma partialSupplySum_eq (k : ℕ) : partialSupplySum k = 21000000 * (1 - (1/2 : ℚ) ^ k) := by
  unfold partialSupplySum HALVING_INTERVAL INITIAL_REWARD
  have h1 : ∀ i : ℕ, (((210000 : ℕ) : ℚ)) * ((50 : ℚ) / 2 ^ i) = 10500000 * (1/2 : ℚ) ^ i := by
    intro i
    rw [one_div, inv_pow, div_eq_mul_inv]
    push_cast
    ring
  rw [Finset.sum_congr rfl (fun i _ => h1 i), ← Finset.mul_sum,
    geom_sum_eq (by norm_num : (1/2 : ℚ) ≠ 1)]
  field_simp
  ring

/-! ### Helper lemmas: the supply walk -/

lemma HALVING_INTERVAL_intCast : (HALVING_INTERVAL : ℤ) = 210000 := rfl

lemma HALVING_INTERVAL_ratCast : (HALVING_INTERVAL : ℚ) = 210000 := rfl

lemma supplyAtBlockAux_stop (bh bp : ℤ) (e : ℕ) (s : ℚ) (h : ¬ bp < bh) :
    supplyAtBlockAux bh bp e s = s := by
  rw [supplyAtBlockAux]
  exact if_neg h

/-- Unfolding the supply walk over `k` complete epochs followed by a
partial epoch of `r` blocks. -/
lemma supplyAtBlockAux_closed : ∀ (k : ℕ) (bp : ℤ) (e : ℕ) (s : ℚ) (r : ℤ),
    0 ≤ r → r < (HALVING_INTERVAL : ℤ) →
    supplyAtBlockAux (bp + k * (HALVING_INTERVAL : ℤ) + r) bp e s
      = s + (∑ i ∈ Finset.range k, (HALVING_INTERVAL : ℚ) * (INITIAL_REWARD / 2 ^ (e + i)))
        + (r : ℚ) * (INITIAL_REWARD / 2 ^ (e + k)) := by
  intro k
  induction k with
  | zero =>
    intro bp e s r hr0 hrI
    rcases eq_or_lt_of_le hr0 with hr | hr
    · rw [← hr]
      rw [show bp + (0 : ℕ) * (HALVING_INTERVAL : ℤ) + 0 = bp by push_cast; ring]
      rw [supplyAtBlockAux_stop _ _ _ _ (lt_irrefl bp)]
      simp
    · rw [supplyAtBlockAux, if_pos (by push_cast; omega : bp < bp + (0:ℕ) * (HALVING_INTERVAL : ℤ) + r)]
      have hd : bp + (0:ℕ) * (HALVING_INTERVAL : ℤ) + r - bp = r := by push_cast; ring
      rw [hd, min_eq_right hrI.le]
      rw [supplyAtBlockAux_stop _ _ _ _ (by push_cast; omega)]
      simp
  | succ k ih =>
    intro bp e s r hr0 hrI
    have hI : (0 : ℤ) < (HALVING_INTERVAL : ℤ) := by rw [HALVING_INTERVAL_intCast]; omega
    have hlt : bp < bp + (k + 1 : ℕ) * (HALVING_INTERVAL : ℤ) + r := by
      push_cast
      nlinarith [Int.natCast_nonneg k]
    rw [supplyAtBlockAux, if_pos hlt]
    have hd : bp + (k + 1 : ℕ) * (HALVING_INTERVAL : ℤ) + r - bp
        = (k + 1 : ℕ) * (HALVING_INTERVAL : ℤ) + r := by ring
    have hge : (HALVING_INTERVAL : ℤ) ≤ (k + 1 : ℕ) * (HALVING_INTERVAL : ℤ) + r := by
      push_cast
      nlinarith [Int.natCast_nonneg k]
    rw [hd, min_eq_left hge]
    have harg : bp + (k + 1 : ℕ) * (HALVING_INTERVAL : ℤ) + r
        = (bp + HALVING_INTERVAL) + (k : ℕ) * (HALVING_INTERVAL : ℤ) + r := by
      push_cast
      ring
    rw [harg, ih (bp + HALVING_INTERVAL) (e + 1) _ r hr0 hrI]
    rw [Finset.sum_range_succ']
    have hcong : ∀ i ∈ Finset.range k,
        (HALVING_INTERVAL : ℚ) * (INITIAL_REWARD / 2 ^ (e + (i + 1)))
          = (HALVING_INTERVAL : ℚ) * (INITIAL_REWARD / 2 ^ (e + 1 + i)) := by
      intro i _
      rw [show e + (i + 1) = e + 1 + i by omega]
    rw [Finset.sum_congr rfl hcong]
    rw [show e + (k + 1) = e + 1 + k by omega]
    push_cast
    ring

/-- `supply_at_block` at `k` full epochs plus `r` extra blocks. -/
lemma supply_at_block_closed (k : ℕ) (r : ℤ) (hr0 : 0 ≤ r)
    (hrI : r < (HALVING_INTERVAL : ℤ)) :
    supply_at_block ((k : ℤ) * HALVING_INTERVAL + r)
      = partialSupplySum k + (r : ℚ) * (INITIAL_REWARD / 2 ^ k) := by
  unfold supply_at_block partialSupplySum
  have h := supplyAtBlockAux_closed k 0 0 0 r hr0 hrI
  rw [show (0 : ℤ) + (k : ℤ) * (HALVING_INTERVAL : ℤ) + r
      = (k : ℤ) * (HALVING_INTERVAL : ℤ) + r by ring] at h
  rw [h]
  simp

/-- `supply_at_block` at an exact epoch boundary. -/
lemma supply_at_block_full (k : ℕ) :
    supply_at_block ((k : ℤ) * HALVING_INTERVAL) = partialSupplySum k := by
  have h := supply_at_block_closed k 0 le_rfl (by rw [HALVING_INTERVAL_intCast]; omega)
  simpa using h

/-- Heights `≤ 0` perform no loop iteration. -/
lemma supply_at_block_of_nonpos (h : ℤ) (hh : h ≤ 0) : supply_at_block h = 0 := by
  unfold supply_at_block
  exact supplyAtBlockAux_stop _ _ _ _ (by omega)

lemma reward_nonneg (e : ℕ) : (0 : ℚ) ≤ INITIAL_REWARD / 2 ^ e := by
  unfold INITIAL_REWARD
  positivity

/-- The walk only ever adds supply: the result dominates the accumulator. -/
lemma supplyAtBlockAux_le : ∀ (n : ℕ) (bh bp : ℤ) (e : ℕ) (s : ℚ),
    (bh - bp).toNat ≤ n → s ≤ supplyAtBlockAux bh bp e s := by
  intro n
  induction n with
  | zero =>
    intro bh bp e s hn
    rw [supplyAtBlockAux_stop _ _ _ _ (by omega)]
  | succ n ih =>
    intro bh bp e s hn
    by_cases hlt : bp < bh
    · rw [supplyAtBlockAux, if_pos hlt]
      have hI : (HALVING_INTERVAL : ℤ) = 210000 := HALVING_INTERVAL_intCast
      have hm1 : 1 ≤ min (HALVING_INTERVAL : ℤ) (bh - bp) := by omega
      have hstep : s ≤ s + ((min (HALVING_INTERVAL : ℤ) (bh - bp) : ℤ) : ℚ) *
          (INITIAL_REWARD / 2 ^ e) := by
        have hc : (0 : ℚ) ≤ ((min (HALVING_INTERVAL : ℤ) (bh - bp) : ℤ) : ℚ) := by
          exact_mod_cast (by omega : (0 : ℤ) ≤ min (HALVING_INTERVAL : ℤ) (bh - bp))
        nlinarith [reward_nonneg e]
      exact hstep.trans (ih bh _ (e + 1) _ (by omega))
    · rw [supplyAtBlockAux_stop _ _ _ _ hlt]

/-- The walk is monotone in the requested block height. -/
lemma supplyAtBlockAux_mono : ∀ (n : ℕ) (h1 h2 bp : ℤ) (e : ℕ) (s : ℚ),
    (h2 - bp).toNat ≤ n → h1 ≤ h2 →
    supplyAtBlockAux h1 bp e s ≤ supplyAtBlockAux h2 bp e s := by
  intro n
  induction n with
  | zero =>
    intro h1 h2 bp e s hn h12
    rw [supplyAtBlockAux_stop h1 _ _ _ (by omega), supplyAtBlockAux_stop h2 _ _ _ (by omega)]
  | succ n ih =>
    intro h1 h2 bp e s hn h12
    have hI : (HALVING_INTERVAL : ℤ) = 210000 := HALVING_INTERVAL_intCast
    by_cases hlt1 : bp < h1
    · have hlt2 : bp < h2 := lt_of_lt_of_le hlt1 h12
      have hm12 : min (HALVING_INTERVAL : ℤ) (h1 - bp) ≤ min (HALVING_INTERVAL : ℤ) (h2 - bp) := by
        omega
      conv_lhs => rw [supplyAtBlockAux]
      conv_rhs => rw [supplyAtBlockAux]
      rw [if_pos hlt1, if_pos hlt2]
      rcases eq_or_lt_of_le hm12 with he | hmlt
      · rw [he]
        exact ih h1 h2 _ (e + 1) _ (by omega) h12
      · have hm1x : min (HALVING_INTERVAL : ℤ) (h1 - bp) = h1 - bp := by omega
        rw [supplyAtBlockAux_stop _ _ _ _ (by omega)]
        refine le_trans ?_ (supplyAtBlockAux_le (n + 1) h2 _ (e + 1) _ (by omega))
        have hcast : ((min (HALVING_INTERVAL : ℤ) (h1 - bp) : ℤ) : ℚ)
            ≤ ((min (HALVING_INTERVAL : ℤ) (h2 - bp) : ℤ) : ℚ) := by exact_mod_cast hm12
        nlinarith [reward_nonneg e]
    · rw [supplyAtBlockAux_stop _ _ _ _ hlt1]
      exact supplyAtBlockAux_le (n + 1) h2 bp e s (by omega)

/-! ### Claim theorems: supply-at-height behaviour -/

/-- C10 counterexample: `supply_at_block` is not total over all integer
inputs — at the concrete height `215040001 = 1024 * 210000 + 1` the
walk's epoch-`1024` iteration computes `50.0 / (2 ** 1024)` and CPython
raises `OverflowError`; the checked embedding returns `none` there
instead of a value. -/
theorem supply_at_block_overflow_at_large_height :
    supply_at_block_checked 215040001 = none := by
  unfold supply_at_block_checked
  rw [if_neg (by rw [HALVING_INTERVAL_intCast]; norm_num)]

/-- C10 (amended): for every block height `≤ 0` (including negatives) the
loop guard fails immediately and `supply_at_block` returns `0.0` without
error; but the function is not total over the integers — every height
above `1024 * halving_interval` raises `OverflowError` (modelled as
`none`). -/
theorem supply_at_block_domain :
    (∀ h : ℤ, h ≤ 0 → supply_at_block_checked h = some 0) ∧
    (∀ h : ℤ, 1024 * (HALVING_INTERVAL : ℤ) < h → supply_at_block_checked h = none) := by
  constructor
  · intro h hh
    unfold supply_at_block_checked
    rw [if_pos (by rw [HALVING_INTERVAL_intCast]; omega), supply_at_block_of_nonpos h hh]
  · intro h hh
    unfold supply_at_block_checked
    rw [if_neg (by omega)]

/-- Witness for C10 (amended) at the concrete height `-7`. -/
theorem supply_at_block_domain_witness : supply_at_block_checked (-7) = some 0 :=
  supply_at_block_domain.1 (-7) (by decide)

/-- C6: `supply_at_block` is monotonically non-decreasing in block height
and returns `0` at height `0`. -/
theorem supply_at_block_monotone :
    (∀ h1 h2 : ℤ, h1 ≤ h2 → supply_at_block h1 ≤ supply_at_block h2) ∧
    supply_at_block 0 = 0 := by
  constructor
  · intro h1 h2 h12
    unfold supply_at_block
    exact supplyAtBlockAux_mono (h2 - 0).toNat h1 h2 0 0 0 (by omega) h12
  · exact supply_at_block_of_nonpos 0 le_rfl

/-- Witness for C6 at the concrete heights `210000 ≤ 420000`. -/
theorem supply_at_block_monotone_witness :
    supply_at_block 210000 ≤ supply_at_block 420000 :=
  supply_at_block_monotone.1 210000 420000 (by decide)

/-- C3 counterexample: one halving interval past the last nonzero-reward
epoch (height `34 * 210000 = 7140000`), the walk has already exceeded
`total_supply()` — the claim "it never exceeds `total_supply()`" is false
on the code, because `supply_at_block` keeps adding positive epoch rewards
past epoch 33 while `total_supply()` truncates the series at 33 epochs. -/
theorem supply_at_block_exceeds_total_supply :
    total_supply < supply_at_block 7140000 := by
  rw [show (7140000 : ℤ) = ((34 : ℕ) : ℤ) * HALVING_INTERVAL by
      rw [HALVING_INTERVAL_intCast]; norm_num,
    supply_at_block_full, partialSupplySum_eq, total_supply_eq]
  norm_num

/-- C3 (amended): at every height beyond `total_epochs * halving_interval`
at which the walk completes without `OverflowError` (the program raises
for heights above `1024 * halving_interval`), the cumulative supply
strictly exceeds `total_supply()` — the walk does not saturate at
`total_supply()`.  The strict excess also holds for the executed float
walk: its first step past the boundary adds `50 / 2^33`, more than half
an ulp of the accumulator, and the correctly rounded walk is monotone
from there. -/
theorem supply_at_block_exceeds_beyond_epochs :
    ∀ (h : ℤ) (s : ℚ), (total_halvings : ℤ) * (HALVING_INTERVAL : ℤ) < h →
      supply_at_block_checked h = some s → total_supply < s := by
  intro h s hh hc
  have hh6 : (6930000 : ℤ) < h := by
    rw [total_halvings_eq, HALVING_INTERVAL_intCast] at hh
    push_cast at hh
    omega
  unfold supply_at_block_checked at hc
  by_cases hdom : h ≤ 1024 * (HALVING_INTERVAL : ℤ)
  · rw [if_pos hdom, Option.some_inj] at hc
    subst hc
    have hmono : supply_at_block 6930001 ≤ supply_at_block h := by
      unfold supply_at_block
      exact supplyAtBlockAux_mono (h - 0).toNat 6930001 h 0 0 0 (by omega) (by omega)
    have hval := supply_at_block_closed 33 1 (by norm_num)
      (by rw [HALVING_INTERVAL_intCast]; norm_num)
    rw [show ((33 : ℕ) : ℤ) * (HALVING_INTERVAL : ℤ) + 1 = 6930001 by
      rw [HALVING_INTERVAL_intCast]; norm_num] at hval
    rw [partialSupplySum_eq, ← total_supply_eq] at hval
    have hr : (0 : ℚ) < INITIAL_REWARD / 2 ^ 33 := by
      unfold INITIAL_REWARD
      positivity
    rw [hval] at hmono
    linarith
  · rw [if_neg hdom] at hc
    exact absurd hc (by simp)

/-- Witness for C3 (amended) at the concrete height `7350000`. -/
theorem supply_at_block_exceeds_beyond_epochs_witness :
    total_supply < supply_at_block 7350000 :=
  supply_at_block_exceeds_beyond_epochs 7350000 (supply_at_block 7350000)
    (by rw [total_halvings_eq]; decide)
    (by unfold supply_at_block_checked; rw [if_pos (by decide)])

/-! ### Claim theorems: total-epoch derivation and total supply -/

/-- C5: the total-epoch derivation loop terminates (it is a well-founded
recursion on the floor of the reward, for every rational starting value)
and for the reference parameters (`initial_reward = 50`,
`smallest_unit_fraction = 100_000_000`) the resulting count is exactly
`33`. -/
theorem total_halvings_is_33 : total_halvings = 33 := total_halvings_eq

/-- C4: the closed-form `total_supply()` agrees with the explicit epoch
summation to within `0.001` (they are exactly equal in exact arithmetic),
and is within `1` of `21,000,000`. -/
theorem total_supply_matches_sum :
    |total_supply - geometricSeriesSum| < 1/1000 ∧ |total_supply - 21000000| < 1 := by
  have hps : partialSupplySum total_halvings = total_supply := by
    rw [total_halvings_eq, partialSupplySum_eq, total_supply_eq]
  have hgs : geometricSeriesSum = total_supply := by
    rw [← hps]
    unfold geometricSeriesSum partialSupplySum
    exact Finset.sum_congr rfl (fun i _ => by ring)
  constructor
  · rw [hgs, sub_self, abs_zero]
    norm_num
  · rw [total_supply_eq, abs_lt]
    constructor <;> norm_num

/-! ### Helper lemmas: inflation rates -/

lemma inflationDenomHeight_false (e : ℕ) :
    inflationDenomHeight e false = (e : ℤ) * HALVING_INTERVAL := by
  unfold inflationDenomHeight
  push_cast
  simp

lemma inflationDenomHeight_true (e : ℕ) :
    inflationDenomHeight e true = ((e + 1 : ℕ) : ℤ) * HALVING_INTERVAL := by
  unfold inflationDenomHeight
  push_cast
  simp

lemma supply_at_block_epoch_pos (k : ℕ) (hk : 1 ≤ k) :
    0 < supply_at_block ((k : ℤ) * HALVING_INTERVAL) := by
  rw [supply_at_block_full, partialSupplySum_eq]
  have h1 : (1/2 : ℚ) ^ k < 1 := pow_lt_one₀ (by norm_num) (by norm_num) (by omega)
  linarith

/-! ### Claim theorems: inflation rates -/

/-- The unchecked rate is `⊤` exactly when the denominator supply is
zero, exactly for `(epoch, use_end_supply) = (0, false)`; otherwise it is
a finite rational. -/
lemma inflation_rate_top_iff (e : ℕ) (u : Bool) :
    (inflation_rate_at_epoch e u = ⊤ ↔
      supply_at_block (inflationDenomHeight e u) = 0) ∧
    (inflation_rate_at_epoch e u = ⊤ ↔ (u = false ∧ e = 0)) ∧
    (¬(u = false ∧ e = 0) → ∃ q : ℚ, inflation_rate_at_epoch e u = (q : WithTop ℚ)) := by
  have hdef : inflation_rate_at_epoch e u =
      if supply_at_block (inflationDenomHeight e u) = 0 then ⊤
      else (((365.25 * 24 * 60 / 10 : ℚ) * (INITIAL_REWARD / 2 ^ e) /
        supply_at_block (inflationDenomHeight e u) * 100 : ℚ) : WithTop ℚ) := rfl
  have hiff1 : inflation_rate_at_epoch e u = ⊤ ↔
      supply_at_block (inflationDenomHeight e u) = 0 := by
    rw [hdef]
    by_cases hz : supply_at_block (inflationDenomHeight e u) = 0
    · rw [if_pos hz]
      exact iff_of_true rfl hz
    · rw [if_neg hz]
      exact iff_of_false WithTop.coe_ne_top hz
  have hzero : supply_at_block (inflationDenomHeight e u) = 0 ↔ (u = false ∧ e = 0) := by
    cases u with
    | false =>
      rw [inflationDenomHeight_false]
      constructor
      · intro h0
        refine ⟨rfl, ?_⟩
        by_contra he
        have hpos := supply_at_block_epoch_pos e (by omega)
        rw [h0] at hpos
        exact lt_irrefl 0 hpos
      · rintro ⟨-, rfl⟩
        simpa using supply_at_block_of_nonpos 0 le_rfl
    | true =>
      rw [inflationDenomHeight_true]
      simp only [Bool.true_eq_false, false_and, iff_false]
      exact ne_of_gt (supply_at_block_epoch_pos (e + 1) (by omega))
  refine ⟨hiff1, hiff1.trans hzero, fun hn => ?_⟩
  have hne : inflation_rate_at_epoch e u ≠ ⊤ := fun hc => hn ((hiff1.trans hzero).mp hc)
  obtain ⟨q, hq⟩ := WithTop.ne_top_iff_exists.mp hne
  exact ⟨q, hq.symm⟩

/-- The int-to-double conversion of `2 ** epoch` succeeds exactly up to
epoch `1023`. -/
lemma overflow_threshold (e : ℕ) : 2 ^ e ≤ DBL_MAX_NAT ↔ e ≤ 1023 := by
  unfold DBL_MAX_NAT
  constructor
  · intro h
    by_contra hc
    push_neg at hc
    have h1 : (2 : ℕ) ^ 1024 ≤ 2 ^ e := Nat.pow_le_pow_right (by norm_num) (by omega)
    have h2 : ((2 : ℕ) ^ 53 - 1) * 2 ^ 971 < 2 ^ 1024 := by norm_num
    exact absurd (h1.trans h) (not_le.mpr h2)
  · intro h
    have h1 : (2 : ℕ) ^ e ≤ 2 ^ 1023 := Nat.pow_le_pow_right (by norm_num) h
    have h2 : (2 : ℕ) ^ 1023 ≤ ((2 : ℕ) ^ 53 - 1) * 2 ^ 971 := by norm_num
    exact h1.trans h2

/-- C8 counterexample: at the concrete in-domain input epoch `1024`
(start-of-epoch), the program does not return a finite numeric
percentage: `reward = 50.0 / (2 ** 1024)` raises `OverflowError`
(`2 ^ 1024` exceeds the largest finite double), so the claim's "for all
other inputs it returns a finite numeric percentage" is false on the
code. -/
theorem inflation_rate_epoch_1024_overflows :
    inflation_rate_at_epoch_checked 1024 false = none := by
  unfold inflation_rate_at_epoch_checked
  rw [if_neg (fun hc => absurd ((overflow_threshold 1024).mp hc) (by omega))]

/-- C8 (amended): on the epoch range where the reward computation does
not overflow (`epoch ≤ 1023`), the rate is the undefined/infinite
outcome exactly when the existing supply at the chosen denominator
height is zero — exactly for epoch `0` with the start-of-epoch
denominator — as a distinct representable value (`⊤`, Python's
`float('inf')`) rather than an exception or a silent zero, and every
other such input yields a finite rational percentage; epochs `≥ 1024`
raise `OverflowError` instead of returning. -/
theorem inflation_rate_checked_spec :
    ∀ (e : ℕ) (u : Bool),
      (e ≤ 1023 →
        (inflation_rate_at_epoch_checked e u = some ⊤ ↔
          supply_at_block (inflationDenomHeight e u) = 0) ∧
        (inflation_rate_at_epoch_checked e u = some ⊤ ↔ (u = false ∧ e = 0)) ∧
        (¬(u = false ∧ e = 0) → ∃ q : ℚ,
          inflation_rate_at_epoch_checked e u = some (q : WithTop ℚ))) ∧
      (1024 ≤ e → inflation_rate_at_epoch_checked e u = none) := by
  intro e u
  constructor
  · intro he
    have hin : inflation_rate_at_epoch_checked e u = some (inflation_rate_at_epoch e u) := by
      unfold inflation_rate_at_epoch_checked
      rw [if_pos ((overflow_threshold e).mpr he)]
    obtain ⟨h1, h2, h3⟩ := inflation_rate_top_iff e u
    refine ⟨?_, ?_, fun hn => ?_⟩
    · rw [hin, Option.some_inj]
      exact h1
    · rw [hin, Option.some_inj]
      exact h2
    · obtain ⟨q, hq⟩ := h3 hn
      exact ⟨q, by rw [hin, hq]⟩
  · intro he
    unfold inflation_rate_at_epoch_checked
    rw [if_neg (fun hc => absurd ((overflow_threshold e).mp hc) (by omega))]

/-- Witness for C8 (amended) at the concrete input epoch `0`,
start-of-epoch. -/
theorem inflation_rate_checked_spec_witness :
    inflation_rate_at_epoch_checked 0 false = some ⊤ :=
  (((inflation_rate_checked_spec 0 false).1 (by decide)).2.1).mpr ⟨rfl, rfl⟩

/-- Definitional unfolding of `inflation_rate_at_epoch`. -/
lemma inflation_rate_at_epoch_ite (e : ℕ) (u : Bool) :
    inflation_rate_at_epoch e u =
      if supply_at_block (inflationDenomHeight e u) = 0 then ⊤
      else (((365.25 * 24 * 60 / 10 : ℚ) * (INITIAL_REWARD / 2 ^ e) /
        supply_at_block (inflationDenomHeight e u) * 100 : ℚ) : WithTop ℚ) := rfl

/-- The annualized rate, with existing supply `21000000 * (1 - 1/z)`
and reward `50 / z`, collapses to `262980000 / (21000000 * (z - 1))`. -/
lemma rate_formula (z : ℚ) (hz : 2 ≤ z) :
    (365.25 * 24 * 60 / 10 : ℚ) * (INITIAL_REWARD / z) / (21000000 * (1 - 1/z)) * 100
      = 262980000 / (21000000 * (z - 1)) := by
  have hz0 : z ≠ 0 := by intro h; rw [h] at hz; norm_num at hz
  have hz1 : z - 1 ≠ 0 := by intro h; have : z = 1 := by linarith
                             rw [this] at hz; norm_num at hz
  unfold INITIAL_REWARD
  field_simp
  ring

lemma two_le_two_pow (e : ℕ) (he : 1 ≤ e) : (2 : ℚ) ≤ 2 ^ e := by
  calc (2 : ℚ) = 2 ^ 1 := (pow_one 2).symm
    _ ≤ 2 ^ e := pow_le_pow_right₀ (by norm_num) he

/-- Closed form of the start-of-epoch inflation rate for `epoch ≥ 1`. -/
lemma inflation_start_val (e : ℕ) (he : 1 ≤ e) :
    inflation_rate_at_epoch e false
      = ((262980000 / (21000000 * ((2 : ℚ) ^ e - 1)) : ℚ) : WithTop ℚ) := by
  have hy2 : (2 : ℚ) ≤ 2 ^ e := two_le_two_pow e he
  have hsup : supply_at_block (inflationDenomHeight e false)
      = 21000000 * (1 - 1/(2 : ℚ) ^ e) := by
    rw [inflationDenomHeight_false, supply_at_block_full, partialSupplySum_eq, one_div_pow]
  have hinv : 1/(2 : ℚ) ^ e ≤ 1/2 := one_div_le_one_div_of_le (by norm_num) hy2
  have hne : supply_at_block (inflationDenomHeight e false) ≠ 0 := by
    rw [hsup]
    have : (0 : ℚ) < 21000000 * (1 - 1/(2 : ℚ) ^ e) := by nlinarith
    exact ne_of_gt this
  rw [inflation_rate_at_epoch_ite, if_neg hne, hsup, rate_formula ((2 : ℚ) ^ e) hy2]

/-- C7: the start-of-epoch inflation rate is strictly decreasing in the
epoch index for every epoch `≥ 1` (hence in particular for epochs
`1..9`). -/
theorem inflation_rate_strictly_decreasing :
    ∀ e : ℕ, 1 ≤ e →
      inflation_rate_at_epoch (e + 1) false < inflation_rate_at_epoch e false := by
  intro e he
  rw [inflation_start_val e he, inflation_start_val (e + 1) (by omega),
    WithTop.coe_lt_coe]
  have hy2 : (2 : ℚ) ≤ 2 ^ e := two_le_two_pow e he
  rw [pow_succ]
  apply div_lt_div_of_pos_left (by norm_num)
  · nlinarith
  · nlinarith

/-- Witness for C7 at the concrete epochs `1` and `2`. -/
theorem inflation_rate_strictly_decreasing_witness :
    inflation_rate_at_epoch 2 false < inflation_rate_at_epoch 1 false :=
  inflation_rate_strictly_decreasing 1 (le_refl 1)

/-! ### Helper lemmas: the percentage-to-block walk -/

lemma blocksToPercentageAux_succ (fuel : ℕ) (t : ℚ) (b : ℕ) (c : ℚ) (e : ℕ) :
    blocksToPercentageAux (fuel + 1) t b c e =
      if c < t then
        if t - c ≥ (HALVING_INTERVAL : ℚ) * (INITIAL_REWARD / 2 ^ e) then
          blocksToPercentageAux fuel t (b + HALVING_INTERVAL)
            (c + (HALVING_INTERVAL : ℚ) * (INITIAL_REWARD / 2 ^ e)) (e + 1)
        else
          some (b + ⌊(t - c) / (INITIAL_REWARD / 2 ^ e)⌋.toNat,
            c + ((⌊(t - c) / (INITIAL_REWARD / 2 ^ e)⌋.toNat : ℕ) : ℚ) *
              (INITIAL_REWARD / 2 ^ e))
      else some (b, c) := rfl

/-- Loop invariant for the percentage walk: started at an epoch boundary
with the accumulated supply of that boundary and a target no larger than
`total_supply`, the walk terminates inside the fuel bound and its final
accumulator equals `supply_at_block` of the final block count. -/
lemma bpAux_spec : ∀ (fuel : ℕ), ∀ (e blocks : ℕ) (target cum : ℚ),
    cum = partialSupplySum e →
    blocks = e * HALVING_INTERVAL →
    target ≤ total_supply →
    e ≤ 33 →
    34 ≤ e + fuel →
    ∃ (b : ℕ) (c : ℚ), blocksToPercentageAux fuel target blocks cum e = some (b, c) ∧
      c = supply_at_block (b : ℤ) := by
  intro fuel
  induction fuel with
  | zero =>
    intro e blocks target cum _ _ _ he hfuel
    omega
  | succ fuel ih =>
    intro e blocks target cum hcum hblocks htarget he hfuel
    rw [blocksToPercentageAux_succ]
    by_cases hlt : cum < target
    · rw [if_pos hlt]
      have he33 : e < 33 := by
        by_contra h33
        have he' : e = 33 := by omega
        subst he'
        have hct : cum = total_supply := by
          rw [hcum, partialSupplySum_eq, total_supply_eq]
        linarith
      by_cases hfull : target - cum ≥ (HALVING_INTERVAL : ℚ) * (INITIAL_REWARD / 2 ^ e)
      · rw [if_pos hfull]
        refine ih (e + 1) (blocks + HALVING_INTERVAL) target
          (cum + (HALVING_INTERVAL : ℚ) * (INITIAL_REWARD / 2 ^ e)) ?_ ?_ htarget
          (by omega) (by omega)
        · rw [hcum]
          unfold partialSupplySum
          rw [Finset.sum_range_succ]
        · rw [hblocks]
          ring
      · rw [if_neg hfull]
        push_neg at hfull
        have hrw : (0 : ℚ) < INITIAL_REWARD / 2 ^ e := by
          unfold INITIAL_REWARD
          positivity
        have hrem : 0 < target - cum := by linarith
        set q := (target - cum) / (INITIAL_REWARD / 2 ^ e) with hq
        have hq0 : 0 < q := div_pos hrem hrw
        have hfl0 : 0 ≤ ⌊q⌋ := Int.floor_nonneg.mpr hq0.le
        have hqI : q < (HALVING_INTERVAL : ℚ) := by
          rw [hq, div_lt_iff₀ hrw]
          linarith
        have hflI : ⌊q⌋ < (HALVING_INTERVAL : ℤ) := by
          apply Int.floor_lt.mpr
          push_cast
          exact_mod_cast hqI
        refine ⟨blocks + ⌊q⌋.toNat, _, rfl, ?_⟩
        have hcast : ((blocks + ⌊q⌋.toNat : ℕ) : ℤ) = (e : ℤ) * HALVING_INTERVAL + ⌊q⌋ := by
          rw [hblocks]
          push_cast [Int.toNat_of_nonneg hfl0]
          ring
        rw [hcast, supply_at_block_closed e ⌊q⌋ hfl0 hflI, hcum]
        have hQ : ((⌊q⌋.toNat : ℕ) : ℚ) = (⌊q⌋ : ℚ) := by
          exact_mod_cast Int.toNat_of_nonneg hfl0
        rw [hQ]
    · rw [if_neg hlt]
      refine ⟨blocks, cum, rfl, ?_⟩
      rw [hcum, hblocks]
      rw [show ((e * HALVING_INTERVAL : ℕ) : ℤ) = (e : ℤ) * HALVING_INTERVAL by push_cast; ring,
        supply_at_block_full]

/-! ### Claim theorems: percentage-to-block walk -/

/-- C9: for every percentage in `[0, 100]` the walk terminates and the
`exact_percentage` it reports equals
`supply_at_block(h) / total_supply() * 100` at the returned height `h`:
the internally accumulated supply coincides with the independent
`supply_at_block` walk. -/
theorem exact_percentage_consistent :
    ∀ p : ℚ, 0 ≤ p → p ≤ 100 →
      ∃ (h : ℕ) (pct : ℚ), blocks_to_percentage p = some (h, pct) ∧
        pct = supply_at_block (h : ℤ) / total_supply * 100 := by
  intro p hp0 hp100
  have htarget : total_supply * (p / 100) ≤ total_supply := by
    nlinarith [total_supply_pos]
  obtain ⟨b, c, hb, hc⟩ := bpAux_spec (total_halvings + 1) 0 0 (total_supply * (p / 100)) 0
    (by simp [partialSupplySum]) (by simp) htarget (by omega)
    (by rw [total_halvings_eq])
  refine ⟨b, c / total_supply * 100, ?_, by rw [hc]⟩
  unfold blocks_to_percentage
  rw [hb]
  rfl

/-- Witness for C9 at the concrete percentage `50`. -/
theorem exact_percentage_consistent_witness :
    ∃ (h : ℕ) (pct : ℚ), blocks_to_percentage 50 = some (h, pct) ∧
      pct = supply_at_block (h : ℤ) / total_supply * 100 :=
  exact_percentage_consistent 50 (by norm_num) (by norm_num)

lemma partialSupplySum_lt_total (e : ℕ) (he : e < 33) :
    partialSupplySum e < total_supply := by
  rw [partialSupplySum_eq, total_supply_eq]
  have h1 : (1/2 : ℚ) ^ 33 < (1/2 : ℚ) ^ e :=
    pow_lt_pow_right_of_lt_one₀ (by norm_num) (by norm_num) he
  linarith

lemma partialSupplySum_33 : partialSupplySum 33 = total_supply := by
  rw [partialSupplySum_eq, total_supply_eq]

/-- For the exact target `total_supply`, the percentage walk takes the
full-epoch branch at every epoch `0..32` and exits at epoch `33` with
`33 * 210000` blocks and accumulator `total_supply`. -/
lemma bpAux_total : ∀ (fuel : ℕ), ∀ (e blocks : ℕ) (cum : ℚ),
    cum = partialSupplySum e →
    blocks = e * HALVING_INTERVAL →
    e ≤ 33 →
    34 ≤ e + fuel →
    blocksToPercentageAux fuel total_supply blocks cum e = some (6930000, total_supply) := by
  intro fuel
  induction fuel with
  | zero =>
    intro e blocks cum _ _ he hfuel
    omega
  | succ fuel ih =>
    intro e blocks cum hcum hblocks he hfuel
    rw [blocksToPercentageAux_succ]
    by_cases he33 : e = 33
    · subst he33
      rw [if_neg (by rw [hcum, partialSupplySum_33]; exact lt_irrefl _)]
      rw [hcum, partialSupplySum_33, hblocks]
      norm_num [HALVING_INTERVAL]
    · have helt : e < 33 := by omega
      rw [if_pos (by rw [hcum]; exact partialSupplySum_lt_total e helt)]
      have hfull : total_supply - cum ≥ (HALVING_INTERVAL : ℚ) * (INITIAL_REWARD / 2 ^ e) := by
        rw [hcum, partialSupplySum_eq, total_supply_eq, HALVING_INTERVAL_ratCast]
        unfold INITIAL_REWARD
        have hr : (50 : ℚ) / 2 ^ e = 50 * (1/2 : ℚ) ^ e := by
          rw [one_div, inv_pow, div_eq_mul_inv]
        rw [hr]
        have h1 : (1/2 : ℚ) ^ 32 ≤ (1/2 : ℚ) ^ e :=
          pow_le_pow_of_le_one (by norm_num) (by norm_num) (by omega)
        have h2 : (1/2 : ℚ) ^ 33 = (1/2 : ℚ) ^ 32 * (1/2) := pow_succ (1/2 : ℚ) 32
        linarith
      rw [if_pos hfull]
      refine ih (e + 1) (blocks + HALVING_INTERVAL)
        (cum + (HALVING_INTERVAL : ℚ) * (INITIAL_REWARD / 2 ^ e)) ?_ ?_ (by omega) (by omega)
      · rw [hcum]
        unfold partialSupplySum
        rw [Finset.sum_range_succ]
      · rw [hblocks]
        ring

/-- C2: `blocks_to_percentage 0` returns `(0, 0.0)` and
`blocks_to_percentage 100` terminates within the `total_epochs + 1` fuel
bound (the walk never passes the last nonzero-reward epoch), returning
the height `total_epochs * halving_interval` whose exact percentage
`100` is at least `99.999`. -/
theorem blocks_to_percentage_boundary :
    blocks_to_percentage 0 = some (0, 0) ∧
    ∃ (b : ℕ) (pct : ℚ), blocks_to_percentage 100 = some (b, pct) ∧
      b = total_halvings * HALVING_INTERVAL ∧ (99999/1000 : ℚ) ≤ pct := by
  constructor
  · unfold blocks_to_percentage
    rw [blocksToPercentageAux_succ,
      if_neg (by rw [show total_supply * ((0 : ℚ) / 100) = 0 by ring]; exact lt_irrefl 0)]
    simp
  · refine ⟨6930000, 100, ?_, ?_, by norm_num⟩
    · unfold blocks_to_percentage
      rw [show total_supply * ((100 : ℚ) / 100) = total_supply by ring]
      rw [bpAux_total (total_halvings + 1) 0 0 0 (by simp [partialSupplySum]) (by simp)
        (by omega) (by rw [total_halvings_eq])]
      rw [Option.map_some']
      rw [div_self (ne_of_gt total_supply_pos)]
      norm_num
    · rw [total_halvings_eq]
      norm_num [HALVING_INTERVAL]

/-- C1 counterexample: the out-of-range input `-1` is not rejected — no
validation failure exists in `blocks_to_percentage`; the call simply
returns the ordinary result `(0, 0.0)` (the loop guard fails at once and
the normal exit path runs). -/
theorem blocks_to_percentage_neg_not_rejected :
    blocks_to_percentage (-1) = some (0, 0) := by
  unfold blocks_to_percentage
  have htar : total_supply * ((-1 : ℚ) / 100) < 0 :=
    mul_neg_of_pos_of_neg total_supply_pos (by norm_num)
  rw [blocksToPercentageAux_succ, if_neg (by linarith : ¬ (0 : ℚ) < total_supply * ((-1 : ℚ) / 100))]
  simp

/-- C1 amended: `blocks_to_percentage` performs no range validation.  For
every percentage below `0` the loop guard `cumulative_supply <
target_supply` is false at entry (the target is negative), so the
epoch-walking loop executes zero iterations and the ordinary result
`(0, 0.0)` is returned — no validation failure is reported. -/
theorem blocks_to_percentage_no_validation :
    ∀ p : ℚ, p < 0 → blocks_to_percentage p = some (0, 0) := by
  intro p hp
  unfold blocks_to_percentage
  have htar : total_supply * (p / 100) < 0 :=
    mul_neg_of_pos_of_neg total_supply_pos (by linarith)
  rw [blocksToPercentageAux_succ, if_neg (by linarith : ¬ (0 : ℚ) < total_supply * (p / 100))]
  simp

/-- Witness for C1 (amended) at the concrete percentage `-5`. -/
theorem blocks_to_percentage_no_validation_witness :
    blocks_to_percentage (-5) = some (0, 0) :=
  blocks_to_percentage_no_validation (-5) (by norm_num)
